import Mathlib

/-!
Verification of the claim-flagging engine of this repository.

The repository has two classifiers over claim-line tables:
* `flagger.py` (`add_proc_code_flag`): the temporal classifier — group lines by
  (member id, procedure code, four modifiers, quantity), filter to
  `plan_paid_amount > 75`, sort by `claim_received_date` ascending and flag
  reference / target / duplicate / other.
* `ptscript.py` (`add_proc_code_flag`): the edit-pair classifier — fetch per
  encounter `ref_intersect` / `target_intersect` code lists from a remote query
  and flag each line by list membership of its `procedure_code`.

The embedding below models the pandas semantics the code actually runs on:
dates are `Option ℤ` (with `none` standing for `NaT`, unparseable dates),
amounts are `ℚ` (floats in the source, compared only against the literal 75),
pandas equality on dates is `dEq` (where `NaT == x` is always false),
`sort_values` uses its default `na_position := last` placement,
`groupby` uses its default `dropna := true`, which excludes any row whose
grouping key has a null component from every group, and the NaN handling of
the edit-pair path applies `pd.isna` to whole cells, whose truth test raises
on a list of two or more codes.
-/

/-- The categorical flag attached to each claim line by either classifier. -/
inductive ProcFlag
  | reference
  | target
  | duplicate
  | other
deriving DecidableEq, Repr

/-- One claim line after the data-preparation block of `flagger.py`
(lines 10–16): paid amount parsed to a number, received date to a date or
null, modifiers filled/trimmed/lowercased to plain strings, procedure code
stripped (still nullable), quantity parsed to a number or null. -/
structure ClaimLine where
  memberId : Option String
  procedureCode : Option String
  procModifier : String
  procModifier2 : String
  procModifier4 : String
  procModifier5 : String
  quantity : Option ℚ
  paidAmount : ℚ
  receivedDate : Option ℤ
deriving DecidableEq, Repr

/-- The temporal grouping key of `flagger.py` lines 19–27. -/
structure GroupKey where
  memberId : String
  procedureCode : String
  procModifier : String
  procModifier2 : String
  procModifier4 : String
  procModifier5 : String
  quantity : ℚ
deriving DecidableEq, Repr

/-- The grouping key of a row under pandas `groupby` semantics: the default
`dropna := true` excludes a row from every group when any key component is
null, which the embedding renders as `none`. -/
def groupKey (r : ClaimLine) : Option GroupKey :=
  match r.memberId, r.procedureCode, r.quantity with
  | some m, some p, some q =>
      some ⟨m, p, r.procModifier, r.procModifier2, r.procModifier4, r.procModifier5, q⟩
  | _, _, _ => none

/-- The lines of the cohort keyed by `k` that survive the
`plan_paid_amount > 75` filter of `flag_by_procedure` (line 31). -/
def survivors (table : List ClaimLine) (k : GroupKey) : List ClaimLine :=
  (table.filter (fun r => decide (groupKey r = some k))).filter
    (fun r => decide (75 < r.paidAmount))

/-- The date comparator used by `sort_values('claim_received_date')`:
ascending on dates, with the default `na_position := last` placing `NaT`
after every real date. -/
def dLe : Option ℤ → Option ℤ → Bool
  | some x, some y => decide (x ≤ y)
  | some _, none => true
  | none, some _ => false
  | none, none => true

/-- Insert one line into a list already sorted by `dLe` on `receivedDate`. -/
def insertByDate (x : ClaimLine) : List ClaimLine → List ClaimLine
  | [] => [x]
  | y :: ys =>
      if dLe x.receivedDate y.receivedDate then x :: y :: ys
      else y :: insertByDate x ys

/-- The `sort_values('claim_received_date')` step of `flag_by_procedure`
(line 31): sort ascending with nulls last.  The tie order among equal dates is
unobservable to the flag logic, so a stable insertion sort stands in for the
library sort. -/
def sortByDate : List ClaimLine → List ClaimLine
  | [] => []
  | x :: xs => insertByDate x (sortByDate xs)

/-- `group.iloc[0]['claim_received_date']` of `flag_by_procedure` (line 35):
the received date of the first row of the sorted cohort. -/
def firstDate (l : List ClaimLine) : Option ℤ :=
  (sortByDate l).head?.bind (fun r => r.receivedDate)

/-- `group.iloc[-1]['claim_received_date']` of `flag_by_procedure` (line 36):
the received date of the last row of the sorted cohort. -/
def lastDate (l : List ClaimLine) : Option ℤ :=
  (sortByDate l).getLast?.bind (fun r => r.receivedDate)

/-- Pandas `==` on two nullable dates: `NaT` compares unequal to everything,
itself included. -/
def dEq : Option ℤ → Option ℤ → Bool
  | some x, some y => x == y
  | _, _ => false

/-- The per-row decision of `flag_by_procedure` (lines 32–48) for a row of a
cohort whose surviving lines are `s`: cohorts with at most one survivor are
`other`; with `first_date == last_date` every survivor is `duplicate`;
otherwise a survivor is `reference` on the first date, `target` on the last
date and `other` in between. -/
def cohortFlag (s : List ClaimLine) (r : ClaimLine) : ProcFlag :=
  if s.length ≤ 1 then ProcFlag.other
  else if dEq (firstDate s) (lastDate s) then ProcFlag.duplicate
  else if dEq r.receivedDate (firstDate s) then ProcFlag.reference
  else if dEq r.receivedDate (lastDate s) then ProcFlag.target
  else ProcFlag.other

/-- The final `proc_code_flag` of a row (lines 51–53 of `flagger.py`): the
default `'other'` is overwritten by the per-cohort flag exactly for rows that
belong to a group (non-null key, since `groupby` drops null keys) and survive
the paid-amount filter. -/
def rowFlag (table : List ClaimLine) (r : ClaimLine) : ProcFlag :=
  match groupKey r with
  | none => ProcFlag.other
  | some k =>
      if 75 < r.paidAmount then cohortFlag (survivors table k) r else ProcFlag.other

/-- The `target_code` column (lines 56–59 of `flagger.py`): the row's own
procedure code when its flag is in `['target', 'duplicate']`, else null. -/
def targetCode (table : List ClaimLine) (r : ClaimLine) : Option String :=
  if rowFlag table r ∈ [ProcFlag.target, ProcFlag.duplicate] then r.procedureCode
  else none

/-- The whole output of `flagger.py`'s `add_proc_code_flag`: the input table
with the `proc_code_flag` and `target_code` columns attached, rows preserved
1:1. -/
def add_proc_code_flag (table : List ClaimLine) :
    List (ClaimLine × ProcFlag × Option String) :=
  table.map (fun r => (r, rowFlag table r, targetCode table r))

/-- Grouping key as the spec's claim C3 describes it: null components are kept
as distinct key values instead of being dropped.  This definition follows the
spec's words and is compared against the source-faithful `groupKey`. -/
structure GroupKeyOpt where
  memberId : Option String
  procedureCode : Option String
  procModifier : String
  procModifier2 : String
  procModifier4 : String
  procModifier5 : String
  quantity : Option ℚ
deriving DecidableEq, Repr

/-- The spec-side key of a row: every component kept, nulls included. -/
def groupKeyOpt (r : ClaimLine) : GroupKeyOpt :=
  ⟨r.memberId, r.procedureCode, r.procModifier, r.procModifier2,
   r.procModifier4, r.procModifier5, r.quantity⟩

/-- Surviving lines of the spec-side cohort of key `k`. -/
def survivorsOpt (table : List ClaimLine) (k : GroupKeyOpt) : List ClaimLine :=
  (table.filter (fun r => decide (groupKeyOpt r = k))).filter
    (fun r => decide (75 < r.paidAmount))

/-- The flag a row would get if, as claim C3 states, null key components
formed degenerate cohorts of their own instead of being dropped by the
grouping. -/
def rowFlagSpecNull (table : List ClaimLine) (r : ClaimLine) : ProcFlag :=
  if 75 < r.paidAmount then cohortFlag (survivorsOpt table (groupKeyOpt r)) r
  else ProcFlag.other


/-! ### Properties of the date comparator and of the sort -/

lemma dLe_refl (a : Option ℤ) : dLe a a = true := by
  cases a <;> simp [dLe]

lemma dLe_total (a b : Option ℤ) : dLe a b = true ∨ dLe b a = true := by
  cases a <;> cases b <;> simp [dLe] <;> omega

lemma dLe_trans {a b c : Option ℤ} (h1 : dLe a b = true) (h2 : dLe b c = true) :
    dLe a c = true := by
  cases a <;> cases b <;> cases c <;> simp_all [dLe] <;> omega

lemma dLe_antisymm {a b : Option ℤ} (h1 : dLe a b = true) (h2 : dLe b a = true) :
    a = b := by
  cases a <;> cases b <;> simp_all [dLe] <;> omega

lemma insertByDate_perm (x : ClaimLine) (l : List ClaimLine) :
    (insertByDate x l).Perm (x :: l) := by
  induction l with
  | nil => simp [insertByDate]
  | cons y ys ih =>
    by_cases h : dLe x.receivedDate y.receivedDate = true
    · simp [insertByDate, h]
    · simp only [insertByDate, h, if_false]
      exact (ih.cons y).trans (List.Perm.swap x y ys)

lemma sortByDate_perm (l : List ClaimLine) : (sortByDate l).Perm l := by
  induction l with
  | nil => simp [sortByDate]
  | cons x xs ih => exact (insertByDate_perm x (sortByDate xs)).trans (ih.cons x)

lemma mem_sortByDate {a : ClaimLine} {l : List ClaimLine} :
    a ∈ sortByDate l ↔ a ∈ l :=
  (sortByDate_perm l).mem_iff

/-- A list is date-sorted when every earlier element compares `dLe` to every
later one. -/
def DSorted (l : List ClaimLine) : Prop :=
  l.Pairwise (fun a b => dLe a.receivedDate b.receivedDate = true)

lemma dsorted_insertByDate (x : ClaimLine) {l : List ClaimLine} (h : DSorted l) :
    DSorted (insertByDate x l) := by
  induction l with
  | nil => simp [insertByDate, DSorted]
  | cons y ys ih =>
    rw [DSorted, List.pairwise_cons] at h
    obtain ⟨h1, h2⟩ := h
    by_cases hxy : dLe x.receivedDate y.receivedDate = true
    · rw [DSorted]
      simp only [insertByDate, hxy, if_true]
      refine List.pairwise_cons.mpr ⟨?_, List.pairwise_cons.mpr ⟨h1, h2⟩⟩
      intro b hb
      rcases List.mem_cons.mp hb with rfl | hb
      · exact hxy
      · exact dLe_trans hxy (h1 b hb)
    · have hyx : dLe y.receivedDate x.receivedDate = true :=
        (dLe_total x.receivedDate y.receivedDate).resolve_left hxy
      rw [DSorted]
      simp only [insertByDate, hxy, if_false]
      refine List.pairwise_cons.mpr ⟨?_, ih h2⟩
      intro b hb
      have hb' : b ∈ x :: ys := (insertByDate_perm x ys).mem_iff.mp hb
      rcases List.mem_cons.mp hb' with rfl | hb'
      · exact hyx
      · exact h1 b hb'

lemma dsorted_sortByDate (l : List ClaimLine) : DSorted (sortByDate l) := by
  induction l with
  | nil => simp [sortByDate, DSorted]
  | cons x xs ih => exact dsorted_insertByDate x ih

lemma head?_mem {l : List ClaimLine} {a : ClaimLine} (h : l.head? = some a) :
    a ∈ l := by
  cases l with
  | nil => cases h
  | cons x xs =>
    simp only [List.head?_cons, Option.some.injEq] at h
    exact h ▸ List.mem_cons_self x xs

lemma getLast?_mem : ∀ {l : List ClaimLine} {a : ClaimLine},
    l.getLast? = some a → a ∈ l := by
  intro l
  induction l with
  | nil => intro a h; cases h
  | cons x xs ih =>
    intro a h
    cases xs with
    | nil =>
      rw [List.getLast?_singleton, Option.some.injEq] at h
      exact h ▸ List.mem_cons_self x []
    | cons y ys =>
      rw [List.getLast?_cons_cons] at h
      exact List.mem_cons_of_mem x (ih h)

lemma getLast?_cons_exists (a : ClaimLine) (l : List ClaimLine) :
    ∃ g, (a :: l).getLast? = some g := by
  induction l generalizing a with
  | nil => exact ⟨a, List.getLast?_singleton a⟩
  | cons b u ih =>
    obtain ⟨g, hg⟩ := ih b
    exact ⟨g, by rw [List.getLast?_cons_cons]; exact hg⟩

lemma head_min {l : List ClaimLine} (hs : DSorted l) {x : ClaimLine}
    (hx : x ∈ l) :
    ∃ a, l.head? = some a ∧ dLe a.receivedDate x.receivedDate = true := by
  cases l with
  | nil => cases hx
  | cons a t =>
    refine ⟨a, rfl, ?_⟩
    rcases List.mem_cons.mp hx with rfl | hxt
    · exact dLe_refl _
    · exact (List.pairwise_cons.mp hs).1 x hxt

lemma last_max : ∀ {l : List ClaimLine}, DSorted l → ∀ {x : ClaimLine}, x ∈ l →
    ∃ g, l.getLast? = some g ∧ dLe x.receivedDate g.receivedDate = true := by
  intro l
  induction l with
  | nil => intro _ x hx; cases hx
  | cons a t ih =>
    intro hs x hx
    cases t with
    | nil =>
      rcases List.mem_cons.mp hx with rfl | hxt
      · exact ⟨_, List.getLast?_singleton _, dLe_refl _⟩
      · cases hxt
    | cons b u =>
      have hs' : DSorted (b :: u) := (List.pairwise_cons.mp hs).2
      have hhead : ∀ y ∈ b :: u, dLe a.receivedDate y.receivedDate = true :=
        (List.pairwise_cons.mp hs).1
      rcases List.mem_cons.mp hx with rfl | hxt
      · obtain ⟨g, hg⟩ := getLast?_cons_exists b u
        exact ⟨g, by rw [List.getLast?_cons_cons]; exact hg,
          hhead g (getLast?_mem hg)⟩
      · obtain ⟨g, hg, hle⟩ := ih hs' hxt
        exact ⟨g, by rw [List.getLast?_cons_cons]; exact hg, hle⟩

/-! ### First and last dates of the sorted cohort -/

lemma firstDate_le {l : List ClaimLine} {x : ClaimLine} (hx : x ∈ l) :
    dLe (firstDate l) x.receivedDate = true := by
  have hx' : x ∈ sortByDate l := mem_sortByDate.mpr hx
  obtain ⟨a, ha, hle⟩ := head_min (dsorted_sortByDate l) hx'
  rw [firstDate, ha]
  exact hle

lemma firstDate_mem {l : List ClaimLine} (hne : l ≠ []) :
    ∃ a ∈ l, firstDate l = a.receivedDate := by
  cases hl : sortByDate l with
  | nil =>
    exact absurd (((sortByDate_perm l).symm.trans (hl ▸ List.Perm.refl _)).eq_nil)
      hne
  | cons a t =>
    refine ⟨a, mem_sortByDate.mp (hl ▸ List.mem_cons_self a t), ?_⟩
    rw [firstDate, hl]
    rfl

lemma le_lastDate {l : List ClaimLine} {x : ClaimLine} (hx : x ∈ l) :
    dLe x.receivedDate (lastDate l) = true := by
  have hx' : x ∈ sortByDate l := mem_sortByDate.mpr hx
  obtain ⟨g, hg, hle⟩ := last_max (dsorted_sortByDate l) hx'
  rw [lastDate, hg]
  exact hle

lemma lastDate_mem {l : List ClaimLine} (hne : l ≠ []) :
    ∃ g ∈ l, lastDate l = g.receivedDate := by
  cases hl : sortByDate l with
  | nil =>
    exact absurd (((sortByDate_perm l).symm.trans (hl ▸ List.Perm.refl _)).eq_nil)
      hne
  | cons a t =>
    obtain ⟨g, hg⟩ := getLast?_cons_exists a t
    refine ⟨g, mem_sortByDate.mp (hl ▸ getLast?_mem hg), ?_⟩
    rw [lastDate, hl, hg]
    rfl

lemma firstDate_perm {l m : List ClaimLine} (h : l.Perm m) :
    firstDate l = firstDate m := by
  rcases hl : l with _ | ⟨a, t⟩
  · have hm : m = [] := (hl ▸ h).symm.eq_nil
    rw [hm]
  · have hlne : l ≠ [] := by rw [hl]; exact List.cons_ne_nil a t
    have hmne : m ≠ [] := by
      intro hm
      exact hlne ((h.trans (hm ▸ List.Perm.refl m)).eq_nil)
    rw [← hl]
    obtain ⟨u, hu, huf⟩ := firstDate_mem hlne
    obtain ⟨v, hv, hvf⟩ := firstDate_mem hmne
    have h1 : dLe (firstDate l) v.receivedDate = true :=
      firstDate_le (h.mem_iff.mpr hv)
    have h2 : dLe (firstDate m) u.receivedDate = true :=
      firstDate_le (h.mem_iff.mp hu)
    rw [← hvf] at h1
    rw [← huf] at h2
    exact dLe_antisymm h1 h2

lemma lastDate_perm {l m : List ClaimLine} (h : l.Perm m) :
    lastDate l = lastDate m := by
  rcases hl : l with _ | ⟨a, t⟩
  · have hm : m = [] := (hl ▸ h).symm.eq_nil
    rw [hm]
  · have hlne : l ≠ [] := by rw [hl]; exact List.cons_ne_nil a t
    have hmne : m ≠ [] := by
      intro hm
      exact hlne ((h.trans (hm ▸ List.Perm.refl m)).eq_nil)
    rw [← hl]
    obtain ⟨u, hu, huf⟩ := lastDate_mem hlne
    obtain ⟨v, hv, hvf⟩ := lastDate_mem hmne
    have h1 : dLe v.receivedDate (lastDate l) = true :=
      le_lastDate (h.mem_iff.mpr hv)
    have h2 : dLe u.receivedDate (lastDate m) = true :=
      le_lastDate (h.mem_iff.mp hu)
    rw [← hvf] at h1
    rw [← huf] at h2
    exact dLe_antisymm h2 h1

/-! ### Unfolding helpers for the row flag -/

lemma mem_survivors {table : List ClaimLine} {k : GroupKey} {r : ClaimLine} :
    r ∈ survivors table k ↔
      r ∈ table ∧ groupKey r = some k ∧ 75 < r.paidAmount := by
  simp only [survivors, List.mem_filter, decide_eq_true_eq]
  tauto

lemma rowFlag_of_none {table : List ClaimLine} {r : ClaimLine}
    (h : groupKey r = none) : rowFlag table r = ProcFlag.other := by
  rw [rowFlag, h]

lemma rowFlag_of_some {table : List ClaimLine} {r : ClaimLine} {k : GroupKey}
    (h : groupKey r = some k) (hp : 75 < r.paidAmount) :
    rowFlag table r = cohortFlag (survivors table k) r := by
  rw [rowFlag, h]
  exact if_pos hp

lemma rowFlag_of_lowpaid {table : List ClaimLine} {r : ClaimLine}
    (hp : ¬ 75 < r.paidAmount) : rowFlag table r = ProcFlag.other := by
  rw [rowFlag]
  cases groupKey r with
  | none => rfl
  | some k => exact if_neg hp

lemma cohortFlag_perm {s s' : List ClaimLine} (h : s.Perm s') (r : ClaimLine) :
    cohortFlag s r = cohortFlag s' r := by
  rw [cohortFlag, cohortFlag, h.length_eq, firstDate_perm h, lastDate_perm h]

lemma dEq_some_some {x y : ℤ} : dEq (some x) (some y) = true ↔ x = y := by
  simp [dEq]

lemma dEq_some_some_false {x y : ℤ} (h : x ≠ y) :
    dEq (some x) (some y) = false := by
  simp [dEq, h]

/-! ### Concrete tables used by counterexamples and witnesses -/

/-- The shared grouping key of the concrete lines below. -/
def kM1P1 : GroupKey := ⟨"M1", "P1", "", "", "", "", 1⟩

/-- A paid-100 line received on day 10. -/
def lineA : ClaimLine := ⟨some "M1", some "P1", "", "", "", "", some 1, 100, some 10⟩

/-- A paid-100 line received on day 20, same cohort as `lineA`. -/
def lineB : ClaimLine := ⟨some "M1", some "P1", "", "", "", "", some 1, 100, some 20⟩

/-- A paid-100 line with a null (unparseable) received date. -/
def lineN1 : ClaimLine := ⟨some "M1", some "P1", "", "", "", "", some 1, 100, none⟩

/-- A paid-120 line with a null received date, same cohort as `lineN1`. -/
def lineN2 : ClaimLine := ⟨some "M1", some "P1", "", "", "", "", some 1, 120, none⟩

/-- A paid-100 line with a null quantity, received on day 10. -/
def lineQ1 : ClaimLine := ⟨some "M1", some "P1", "", "", "", "", none, 100, some 10⟩

/-- A paid-100 line with a null quantity, received on day 20. -/
def lineQ2 : ClaimLine := ⟨some "M1", some "P1", "", "", "", "", none, 100, some 20⟩

/-- A line paid only 50, below the filter threshold. -/
def lineC : ClaimLine := ⟨some "M1", some "P1", "", "", "", "", some 1, 50, some 10⟩

/-! ### Claim C1 — temporal multi-state rule -/

/-- Claim C1, counterexample.  The claim as stated says that a cohort of two
or more surviving lines that all share one `receivedDate` is flagged
`duplicate` throughout.  In the code, when the shared date is null, pandas
`NaT == NaT` is false, so `first_date == last_date` fails and every line falls
through to `other`: the cohort `[lineN1, lineN2]` (both paid above 75, both
with null dates, equal `receivedDate` fields) gets `other`, not `duplicate`. -/
theorem temporal_all_null_dates_cex :
    2 ≤ (survivors [lineN1, lineN2] kM1P1).length ∧
    (∀ a ∈ survivors [lineN1, lineN2] kM1P1,
      ∀ b ∈ survivors [lineN1, lineN2] kM1P1,
        a.receivedDate = b.receivedDate) ∧
    ¬ (∀ r ∈ survivors [lineN1, lineN2] kM1P1,
        rowFlag [lineN1, lineN2] r = ProcFlag.duplicate) ∧
    rowFlag [lineN1, lineN2] lineN1 = ProcFlag.other := by
  decide

/-- Claim C1, amended: the multi-state rule as claimed holds for every cohort
with two or more surviving lines provided every surviving line has a non-null
`receivedDate`: all dates equal means every line is `duplicate`; otherwise a
line on the first (earliest) date of the sorted cohort is `reference`, on the
last (latest) date `target`, and on any other date `other`. -/
theorem temporal_multistate_flags (table : List ClaimLine) (k : GroupKey)
    (hlen : 2 ≤ (survivors table k).length)
    (hsome : ∀ r ∈ survivors table k, r.receivedDate.isSome) :
    ((∀ a ∈ survivors table k, ∀ b ∈ survivors table k,
        a.receivedDate = b.receivedDate) →
      ∀ r ∈ survivors table k, rowFlag table r = ProcFlag.duplicate) ∧
    ((¬ ∀ a ∈ survivors table k, ∀ b ∈ survivors table k,
        a.receivedDate = b.receivedDate) →
      ∀ r ∈ survivors table k,
        (r.receivedDate = firstDate (survivors table k) →
          rowFlag table r = ProcFlag.reference) ∧
        (r.receivedDate = lastDate (survivors table k) →
          rowFlag table r = ProcFlag.target) ∧
        (r.receivedDate ≠ firstDate (survivors table k) →
          r.receivedDate ≠ lastDate (survivors table k) →
          rowFlag table r = ProcFlag.other)) := by
  have hne : survivors table k ≠ [] := by
    intro h0
    rw [h0] at hlen
    simp at hlen
  have hlen1 : ¬ (survivors table k).length ≤ 1 := by omega
  obtain ⟨a, haS, hafd⟩ := firstDate_mem hne
  obtain ⟨g, hgS, hgld⟩ := lastDate_mem hne
  obtain ⟨da, hda⟩ := Option.isSome_iff_exists.mp (hsome a haS)
  obtain ⟨dg, hdg⟩ := Option.isSome_iff_exists.mp (hsome g hgS)
  have hfd : firstDate (survivors table k) = some da := by rw [hafd, hda]
  have hld : lastDate (survivors table k) = some dg := by rw [hgld, hdg]
  constructor
  · intro hall r hr
    obtain ⟨-, hrk, hrp⟩ := mem_survivors.mp hr
    have hdd : da = dg := by
      have h := hall a haS g hgS
      rw [hda, hdg] at h
      exact Option.some_inj.mp h
    rw [rowFlag_of_some hrk hrp, cohortFlag, if_neg hlen1, hfd, hld, hdd]
    simp [dEq]
  · intro hnall r hr
    obtain ⟨-, hrk, hrp⟩ := mem_survivors.mp hr
    obtain ⟨dr, hdr⟩ := Option.isSome_iff_exists.mp (hsome r hr)
    have hdd : da ≠ dg := by
      intro heq
      apply hnall
      have key : ∀ u ∈ survivors table k, u.receivedDate = some da := by
        intro u hu
        obtain ⟨du, hdu⟩ := Option.isSome_iff_exists.mp (hsome u hu)
        have h1 : dLe (firstDate (survivors table k)) u.receivedDate = true :=
          firstDate_le hu
        have h2 : dLe u.receivedDate (lastDate (survivors table k)) = true :=
          le_lastDate hu
        rw [hfd, hdu] at h1
        rw [hdu, hld] at h2
        simp only [dLe, decide_eq_true_eq] at h1 h2
        rw [hdu]
        have : du = da := by omega
        rw [this]
      intro u hu v hv
      rw [key u hu, key v hv]
    have hdqf :
        dEq (firstDate (survivors table k)) (lastDate (survivors table k))
          = false := by
      rw [hfd, hld]
      exact dEq_some_some_false hdd
    refine ⟨?_, ?_, ?_⟩
    · intro hrf
      rw [rowFlag_of_some hrk hrp, cohortFlag, if_neg hlen1]
      rw [if_neg (by simp [hdqf]), hrf, hfd]
      simp [dEq]
    · intro hrl
      rw [rowFlag_of_some hrk hrp, cohortFlag, if_neg hlen1]
      have hc1 : dEq r.receivedDate (firstDate (survivors table k)) = false := by
        rw [hrl, hld, hfd]
        exact dEq_some_some_false fun h => hdd h.symm
      have hc2 : dEq r.receivedDate (lastDate (survivors table k)) = true := by
        rw [hrl, hld]
        exact dEq_some_some.mpr rfl
      rw [if_neg (by simp [hdqf]), if_neg (by simp [hc1]), if_pos hc2]
    · intro hn1 hn2
      rw [rowFlag_of_some hrk hrp, cohortFlag, if_neg hlen1]
      have hc1 : dEq r.receivedDate (firstDate (survivors table k)) = false := by
        rw [hdr, hfd]
        refine dEq_some_some_false fun h => hn1 ?_
        rw [hdr, hfd, h]
      have hc2 : dEq r.receivedDate (lastDate (survivors table k)) = false := by
        rw [hdr, hld]
        refine dEq_some_some_false fun h => hn2 ?_
        rw [hdr, hld, h]
      rw [if_neg (by simp [hdqf]), if_neg (by simp [hc1]),
        if_neg (by simp [hc2])]

/-- Claim C1, witness: the amended rule applied to the concrete two-line
cohort `[lineA, lineB]` (both paid 100, dates 10 and 20) yields `reference`
for the earlier line and `target` for the later one. -/
theorem temporal_multistate_flags_witness :
    2 ≤ (survivors [lineA, lineB] kM1P1).length ∧
    (∀ r ∈ survivors [lineA, lineB] kM1P1, r.receivedDate.isSome) ∧
    rowFlag [lineA, lineB] lineA = ProcFlag.reference ∧
    rowFlag [lineA, lineB] lineB = ProcFlag.target := by
  refine ⟨by decide, by decide, ?_, ?_⟩
  · exact (((temporal_multistate_flags [lineA, lineB] kM1P1 (by decide)
      (by decide)).2 (by decide)) lineA (by decide)).1 (by decide)
  · exact ((((temporal_multistate_flags [lineA, lineB] kM1P1 (by decide)
      (by decide)).2 (by decide)) lineB (by decide)).2).1 (by decide)

/-! ### Claim C8 — cohort independence under row permutation -/

/-- Claim C8: permuting the input table does not change any row's final flag.
The flag of a row depends on the table only through the multiset of lines
sharing its grouping key, which a permutation preserves. -/
theorem cohort_independence (t u : List ClaimLine) (h : t.Perm u)
    (r : ClaimLine) : rowFlag t r = rowFlag u r := by
  cases hk : groupKey r with
  | none => rw [rowFlag_of_none hk, rowFlag_of_none hk]
  | some k =>
    by_cases hp : 75 < r.paidAmount
    · rw [rowFlag_of_some hk hp, rowFlag_of_some hk hp]
      exact cohortFlag_perm ((h.filter _).filter _) r
    · rw [rowFlag_of_lowpaid hp, rowFlag_of_lowpaid hp]

/-- Claim C8, witness: swapping the two rows of the concrete table
`[lineA, lineB]` leaves both rows' flags unchanged. -/
theorem cohort_independence_witness :
    ([lineA, lineB] : List ClaimLine).Perm [lineB, lineA] ∧
    rowFlag [lineA, lineB] lineA = rowFlag [lineB, lineA] lineA ∧
    rowFlag [lineA, lineB] lineB = rowFlag [lineB, lineA] lineB := by
  refine ⟨by decide, ?_, ?_⟩
  · exact cohort_independence [lineA, lineB] [lineB, lineA] (by decide) lineA
  · exact cohort_independence [lineA, lineB] [lineB, lineA] (by decide) lineB

/-! ### Claim C3 — null grouping-key components -/

/-- Claim C3, counterexample.  The claim says a null key component (here a
null `quantity`) still forms a degenerate cohort with null as a distinct key
value and is never dropped from grouping.  In the code, pandas `groupby` with
its default `dropna` excludes such rows from every group, so the two
paid-100 lines `lineQ1`/`lineQ2` (identical null-quantity keys, distinct
dates) are never compared: the claimed behaviour (`rowFlagSpecNull`, which
keys on nulls as values) would make `lineQ1` a `reference`, but the code
leaves it at the default `other`. -/
theorem null_key_grouping_cex :
    groupKey lineQ1 = none ∧
    lineQ1 ∈ ([lineQ1, lineQ2] : List ClaimLine) ∧
    rowFlagSpecNull [lineQ1, lineQ2] lineQ1 = ProcFlag.reference ∧
    rowFlag [lineQ1, lineQ2] lineQ1 = ProcFlag.other := by
  decide

/-- Claim C3, amended: a record with any null grouping-key component is
excluded from grouping (it belongs to no cohort) and receives the default
flag `other` with a null `targetCode`; it is still present, un-dropped, in
the output table. -/
theorem null_key_rows_default (table : List ClaimLine) (r : ClaimLine)
    (hmem : r ∈ table) (hk : groupKey r = none) :
    rowFlag table r = ProcFlag.other ∧
    (∀ k, r ∉ survivors table k) ∧
    (r, ProcFlag.other, (none : Option String)) ∈ add_proc_code_flag table := by
  have hflag : rowFlag table r = ProcFlag.other := rowFlag_of_none hk
  refine ⟨hflag, ?_, ?_⟩
  · intro k hmemk
    obtain ⟨-, hrk, -⟩ := mem_survivors.mp hmemk
    rw [hk] at hrk
    cases hrk
  · have htc : targetCode table r = none := by
      rw [targetCode, if_neg]
      rw [hflag]
      decide
    have : (r, rowFlag table r, targetCode table r) ∈ add_proc_code_flag table :=
      List.mem_map.mpr ⟨r, hmem, rfl⟩
    rw [hflag, htc] at this
    exact this

/-- Claim C3, witness: the amended statement applied to the null-quantity
line `lineQ1` inside the concrete table `[lineQ1, lineQ2]`. -/
theorem null_key_rows_default_witness :
    lineQ1 ∈ ([lineQ1, lineQ2] : List ClaimLine) ∧
    groupKey lineQ1 = none ∧
    rowFlag [lineQ1, lineQ2] lineQ1 = ProcFlag.other ∧
    (lineQ1, ProcFlag.other, (none : Option String))
      ∈ add_proc_code_flag [lineQ1, lineQ2] := by
  refine ⟨by decide, by decide, ?_, ?_⟩
  · exact (null_key_rows_default [lineQ1, lineQ2] lineQ1 (by decide)
      (by decide)).1
  · exact (null_key_rows_default [lineQ1, lineQ2] lineQ1 (by decide)
      (by decide)).2.2

/-! ### Claim C4 — placement of null dates in the sort -/

/-- Claim C4, counterexample.  The claim says null received dates sort first.
`sort_values` with its default `na_position` puts them last: sorting the
concrete cohort `[lineN1, lineA]` (one null date, one day-10 date) yields the
dated line first, so the nulls-first pairwise property fails. -/
theorem null_dates_sort_first_cex :
    ¬ (sortByDate [lineN1, lineA]).Pairwise
        (fun a b => b.receivedDate = none → a.receivedDate = none) := by
  decide

/-- Claim C4, amended: `sortByDate` is a deterministic permutation of the
cohort in which every line with a null `receivedDate` is placed after every
line with a non-null date (pandas default `na_position := last`), the
opposite of the claimed nulls-first placement. -/
theorem null_dates_sort_last (l : List ClaimLine) :
    (sortByDate l).Perm l ∧
    (sortByDate l).Pairwise
      (fun a b => a.receivedDate = none → b.receivedDate = none) := by
  refine ⟨sortByDate_perm l, ?_⟩
  refine (dsorted_sortByDate l).imp ?_
  intro a b hab ha
  cases hb : b.receivedDate with
  | none => rfl
  | some d =>
    rw [ha, hb] at hab
    simp [dLe] at hab

/-! ### Claim C5 — paid-amount filter, degenerate cohorts, default flag -/

/-- Claim C5: a line with `paidAmount ≤ 75` is excluded from every surviving
cohort (hence from the ordering step) and is flagged `other`; every surviving
line of a cohort with at most one survivor is flagged `other`; and a row the
per-cohort logic never reaches (null grouping key, or filtered out) keeps the
default `other`. -/
theorem low_paid_and_degenerate_other (table : List ClaimLine)
    (r : ClaimLine) :
    (r.paidAmount ≤ 75 →
      rowFlag table r = ProcFlag.other ∧ ∀ k, r ∉ survivors table k) ∧
    (∀ k, (survivors table k).length ≤ 1 →
      ∀ s ∈ survivors table k, rowFlag table s = ProcFlag.other) ∧
    ((groupKey r = none ∨ r.paidAmount ≤ 75) →
      rowFlag table r = ProcFlag.other) := by
  refine ⟨?_, ?_, ?_⟩
  · intro hle
    have hp : ¬ 75 < r.paidAmount := not_lt.mpr hle
    refine ⟨rowFlag_of_lowpaid hp, ?_⟩
    intro k hmemk
    exact hp (mem_survivors.mp hmemk).2.2
  · intro k hlen s hs
    obtain ⟨-, hsk, hsp⟩ := mem_survivors.mp hs
    rw [rowFlag_of_some hsk hsp, cohortFlag, if_pos hlen]
  · rintro (hk | hle)
    · exact rowFlag_of_none hk
    · exact rowFlag_of_lowpaid (not_lt.mpr hle)

/-- Claim C5, witness: the line paid 50 in the singleton table `[lineC]` is
flagged `other` and survives no cohort; and `lineA` alone in its cohort (one
survivor) is flagged `other`. -/
theorem low_paid_and_degenerate_other_witness :
    lineC.paidAmount ≤ 75 ∧
    rowFlag [lineC] lineC = ProcFlag.other ∧
    (survivors [lineA, lineC] kM1P1).length ≤ 1 ∧
    rowFlag [lineA, lineC] lineA = ProcFlag.other := by
  refine ⟨by decide, ?_, by decide, ?_⟩
  · exact ((low_paid_and_degenerate_other [lineC] lineC).1 (by decide)).1
  · exact (low_paid_and_degenerate_other [lineA, lineC] lineA).2.1 kM1P1
      (by decide) lineA (by decide)

/-! ### Claim C6 — the targetCode postcondition -/

/-- Claim C6: `targetCode` echoes the row's own (non-null) procedure code
exactly on the flags `target` and `duplicate`, and is null on every other
flag.  Non-nullness holds because those flags only arise for rows whose
grouping key — the procedure code included — was fully present. -/
theorem target_code_echo (table : List ClaimLine) (r : ClaimLine) :
    (rowFlag table r ∈ [ProcFlag.target, ProcFlag.duplicate] →
      targetCode table r = r.procedureCode ∧ r.procedureCode.isSome) ∧
    (rowFlag table r ∉ [ProcFlag.target, ProcFlag.duplicate] →
      targetCode table r = none) := by
  constructor
  · intro h
    refine ⟨by rw [targetCode, if_pos h], ?_⟩
    cases hk : groupKey r with
    | none =>
      rw [rowFlag_of_none hk] at h
      simp at h
    | some k =>
      rw [groupKey] at hk
      rcases hm : r.memberId with _ | m <;>
        rcases hpc : r.procedureCode with _ | p <;>
        rcases hq : r.quantity with _ | q <;>
        rw [hm, hpc, hq] at hk <;> first | (simp [hpc]; done) | simp at hk
  · intro h
    rw [targetCode, if_neg h]

/-- Claim C6, witness: in the concrete table `[lineA, lineB]` the later line
is flagged `target` and its `targetCode` echoes its procedure code `P1`. -/
theorem target_code_echo_witness :
    rowFlag [lineA, lineB] lineB ∈ [ProcFlag.target, ProcFlag.duplicate] ∧
    targetCode [lineA, lineB] lineB = lineB.procedureCode ∧
    lineB.procedureCode.isSome := by
  refine ⟨by decide, ?_, ?_⟩
  · exact ((target_code_echo [lineA, lineB] lineB).1 (by decide)).1
  · exact ((target_code_echo [lineA, lineB] lineB).1 (by decide)).2

/-! ### The edit-pair classifier of `ptscript.py` -/

/-- One input row of the edit-pair classifier: the four encounter-identity
columns plus the procedure code (the columns `add_proc_code_flag` requires). -/
structure PtRow where
  payerControlNumber : String
  memberMedicareId : String
  serviceDate : String
  renderingProviderNpi : String
  procedureCode : String
deriving DecidableEq, Repr

/-- One row of the reference data returned by the Athena query: the encounter
key and the two intersect columns, still in their bracketed textual form. -/
structure RefRow where
  payerControlNumber : String
  memberMedicareId : String
  serviceDate : String
  renderingProviderNpi : String
  refIntersect : String
  targetIntersect : String
deriving DecidableEq, Repr

/-- Python's `str.strip()` on a character list: drop whitespace from both
ends. -/
def trimChars (l : List Char) : List Char :=
  ((l.dropWhile Char.isWhitespace).reverse.dropWhile Char.isWhitespace).reverse

/-- Python's `split(',')` on a character list: cut at every comma, keeping
empty pieces (so the empty string yields `[""]`). -/
def splitComma : List Char → List Char → List String
  | [], acc => [String.mk acc.reverse]
  | c :: cs, acc =>
      if c = ',' then String.mk acc.reverse :: splitComma cs []
      else splitComma cs (c :: acc)

/-- The cleaning of an intersect column (lines 157–163 of `ptscript.py`):
`.str.replace('[', '')` and `.str.replace(']', '')` delete every bracket
character, `.str.split(',')` cuts at commas, and each piece is stripped.
The string primitives are spelled out on character lists so that they
evaluate inside the kernel. -/
def cleanIntersect (s : String) : List String :=
  (splitComma (s.data.filter (fun c => !(c = '[' || c = ']'))) []).map
    (fun t => String.mk (trimChars t.data))

/-- The encounter key of an input row, as used by the merge (lines 166–169). -/
def encKey (r : PtRow) : String × String × String × String :=
  (r.payerControlNumber, r.memberMedicareId, r.serviceDate,
   r.renderingProviderNpi)

/-- The encounter key of a reference row. -/
def refEncKey (r : RefRow) : String × String × String × String :=
  (r.payerControlNumber, r.memberMedicareId, r.serviceDate,
   r.renderingProviderNpi)

/-- The left-merge of one input row against the reference data: the matching
reference row, if any.  The query groups by the encounter key, so at most one
row matches; `find?` returns it. -/
def lookupFor (refs : List RefRow) (row : PtRow) : Option RefRow :=
  refs.find? (fun rr => decide (refEncKey rr = encKey row))

/-- The merged intersect cells of one input row after the left merge of
lines 166–169: the cleaned lists of the matching reference row, or a scalar
NaN (modelled `none`) in both columns when the encounter is absent from the
lookup result. -/
def mergedCells (refs : List RefRow) (row : PtRow) :
    Option (List String) × Option (List String) :=
  match lookupFor refs row with
  | some rr =>
      (some (cleanIntersect rr.refIntersect),
       some (cleanIntersect rr.targetIntersect))
  | none => (none, none)

/-- The NaN-handling lambda of lines 172–173 on one cell,
`[''] if pd.isna(x) else x`: a scalar NaN is replaced by `['']`; on a list
cell `pd.isna` returns an ndarray of per-element booleans, whose truth test
evaluates to `False` for a one-element list but raises
`ValueError: the truth value of an array with more than one element is
ambiguous` otherwise — the raise is modelled as `none`. -/
def fillCell : Option (List String) → Option (List String)
  | none => some [""]
  | some l => if l.length = 1 then some l else none

/-- The effective `(ref_intersect, target_intersect)` lists of one row after
the merge and the NaN handling, or `none` when the `pd.isna` truth test
raises on either of the row's two cells.  (The code fills the target column
first, line 172; a raise in either column aborts the pass identically.) -/
def effectiveSets (refs : List RefRow) (row : PtRow) :
    Option (List String × List String) :=
  match fillCell (mergedCells refs row).1, fillCell (mergedCells refs row).2 with
  | some rs, some ts => some (rs, ts)
  | _, _ => none

/-- The `flag_row` function (lines 176–182): `reference` when the procedure
code is in the ref list, else `target` when in the target list, else
`other`. -/
def flag_row (sets : List String × List String) (proc : String) : ProcFlag :=
  if proc ∈ sets.1 then ProcFlag.reference
  else if proc ∈ sets.2 then ProcFlag.target
  else ProcFlag.other

/-- The flag the edit-pair classifier assigns to one input row, or `none`
when the NaN handling of the row's cells raises instead of producing the two
sets. -/
def ptFlag (refs : List RefRow) (row : PtRow) : Option ProcFlag :=
  (effectiveSets refs row).map (fun sets => flag_row sets row.procedureCode)

/-- The flags of a whole batch: the column-wise fill of lines 172–173 runs
over every cell before `flag_row` is applied to any row, so a single raising
cell aborts the pass with nothing flagged (`none`). -/
def flagRows (refs : List RefRow) :
    List PtRow → Option (List (PtRow × ProcFlag))
  | [] => some []
  | r :: rs =>
      match ptFlag refs r, flagRows refs rs with
      | some f, some rest => some ((r, f) :: rest)
      | _, _ => none

/-- The states an Athena query execution can report. -/
inductive QueryState
  | queued
  | running
  | succeeded
  | failed
  | cancelled
deriving DecidableEq, Repr

/-- The loop exit test of `run_query` (line 39): the state is terminal when
it is in `['SUCCEEDED', 'FAILED', 'CANCELLED']`. -/
def isTerminalState (s : QueryState) : Bool :=
  match s with
  | .succeeded => true
  | .failed => true
  | .cancelled => true
  | _ => false

/-- Step-indexed semantics of the `while True` polling loop of `run_query`
(lines 36–40): `states i` is the status the `i`-th `get_query_execution`
call reports; after `fuel` polls starting at index `i` the loop has either
returned the first terminal state it saw (`some s`) or is still looping
(`none`).  The loop itself has no retry limit, sleep or timeout. -/
def pollFrom (states : ℕ → QueryState) (i : ℕ) : ℕ → Option QueryState
  | 0 => none
  | fuel + 1 =>
      if isTerminalState (states i) then some (states i)
      else pollFrom states (i + 1) fuel

/-- The polling loop observed from its start, with a poll budget `fuel`. -/
def pollLoop (states : ℕ → QueryState) (fuel : ℕ) : Option QueryState :=
  pollFrom states 0 fuel

/-- The observable outcome of one `run_query` call, abstracting the remote
side: either an exception while starting/polling the query (the outer
`except` of lines 27–60), or the loop exited with terminal state `s` and the
result object decoded to `decoded` (`none` when `read_csv` raised, lines
42–53). -/
inductive QueryOutcome
  | startFailure
  | finished (s : QueryState) (decoded : Option (List RefRow))
deriving DecidableEq, Repr

/-- What `run_query` returns (lines 42–60): the decoded table only when the
query SUCCEEDED and decoding worked; `None` on a non-success terminal state,
a decode error, or an exception. -/
def run_query : QueryOutcome → Option (List RefRow)
  | .startFailure => none
  | .finished s decoded =>
      if s = QueryState.succeeded then decoded else none

/-- The failure shapes of `add_proc_code_flag` in `ptscript.py`:
`ValueError` for a missing required column (line 91), `RuntimeError` when
the reference data could not be fetched (line 153), and the uncaught
`ValueError` the ndarray truth test of `pd.isna` raises on lines 172–173
when a merged cell holds a list of two or more codes. -/
inductive PtError
  | schemaError (col : String)
  | lookupFailure
  | truthValueAmbiguous
deriving DecidableEq, Repr

/-- The required columns checked on lines 87–91 of `ptscript.py`. -/
def requiredColumns : List String :=
  ["payer_control_number", "member_medicare_id", "service_date",
   "rendering_provider_npi", "procedure_code"]

/-- The whole `add_proc_code_flag` of `ptscript.py`: reject the batch on the
first missing required column, abort when `run_query` produced no reference
data, crash with the uncaught `ValueError` when the `pd.isna` truth test of
the fill step raises, and otherwise flag every row.  `cols` is the input
table's column list, `rows` its rows, `outcome` the observable behaviour of
the remote query. -/
def add_proc_code_flag_pt (cols : List String) (rows : List PtRow)
    (outcome : QueryOutcome) : Except PtError (List (PtRow × ProcFlag)) :=
  match requiredColumns.find? (fun c => !(cols.contains c)) with
  | some c => .error (.schemaError c)
  | none =>
      match run_query outcome with
      | none => .error .lookupFailure
      | some refs =>
          match flagRows refs rows with
          | none => .error .truthValueAmbiguous
          | some flagged => .ok flagged

lemma effectiveSets_none {refs : List RefRow} {row : PtRow}
    (h : lookupFor refs row = none) :
    effectiveSets refs row = some ([""], [""]) := by
  simp [effectiveSets, mergedCells, h, fillCell]

lemma effectiveSets_ok {refs : List RefRow} {row : PtRow} {rr : RefRow}
    (h : lookupFor refs row = some rr)
    (h1 : (cleanIntersect rr.refIntersect).length = 1)
    (h2 : (cleanIntersect rr.targetIntersect).length = 1) :
    effectiveSets refs row
      = some (cleanIntersect rr.refIntersect,
          cleanIntersect rr.targetIntersect) := by
  simp [effectiveSets, mergedCells, h, fillCell, h1, h2]

lemma effectiveSets_raises {refs : List RefRow} {row : PtRow} {rr : RefRow}
    (h : lookupFor refs row = some rr)
    (hbad : (cleanIntersect rr.refIntersect).length ≠ 1 ∨
      (cleanIntersect rr.targetIntersect).length ≠ 1) :
    effectiveSets refs row = none := by
  by_cases h1 : (cleanIntersect rr.refIntersect).length = 1
  · rcases hbad with hbad | hbad
    · exact absurd h1 hbad
    · simp [effectiveSets, mergedCells, h, fillCell, h1, hbad]
  · simp [effectiveSets, mergedCells, h, fillCell, h1]

lemma flagRows_map_fst {refs : List RefRow} :
    ∀ {rows : List PtRow} {out : List (PtRow × ProcFlag)},
      flagRows refs rows = some out → out.map Prod.fst = rows := by
  intro rows
  induction rows with
  | nil =>
    intro out h
    rw [flagRows] at h
    cases h
    rfl
  | cons r rs ih =>
    intro out h
    rw [flagRows] at h
    cases hf : ptFlag refs r with
    | none =>
      rw [hf] at h
      cases h
    | some f =>
      cases hrest : flagRows refs rs with
      | none =>
        rw [hf, hrest] at h
        cases h
      | some rest =>
        rw [hf, hrest] at h
        cases h
        simp [ih hrest]

lemma flagRows_flags {refs : List RefRow} :
    ∀ {rows : List PtRow} {out : List (PtRow × ProcFlag)},
      flagRows refs rows = some out →
      ∀ pr ∈ out, ptFlag refs pr.1 = some pr.2 := by
  intro rows
  induction rows with
  | nil =>
    intro out h
    rw [flagRows] at h
    cases h
    intro pr hpr
    cases hpr
  | cons r rs ih =>
    intro out h
    rw [flagRows] at h
    cases hf : ptFlag refs r with
    | none =>
      rw [hf] at h
      cases h
    | some f =>
      cases hrest : flagRows refs rs with
      | none =>
        rw [hf, hrest] at h
        cases h
      | some rest =>
        rw [hf, hrest] at h
        cases h
        intro pr hpr
        rcases List.mem_cons.mp hpr with rfl | hpr
        · exact hf
        · exact ih hrest pr hpr

/-! ### Concrete edit-pair data -/

/-- A reference row for encounter `(p1, m1, 2024-01-01, n1)` whose reference
intersect cleans to the two-element list `['99213', '99214']` — a cell on
which the `pd.isna` truth test of the fill step raises. -/
def refRowW : RefRow :=
  ⟨"p1", "m1", "2024-01-01", "n1", "[99213, 99214]", "[99215]"⟩

/-- A reference row for the same encounter whose intersect cells clean to
one-element lists, on which the fill step completes. -/
def refRowS : RefRow :=
  ⟨"p1", "m1", "2024-01-01", "n1", "[99213]", "[99215]"⟩

/-- A matched input row whose code is in the reference list. -/
def rowRef : PtRow := ⟨"p1", "m1", "2024-01-01", "n1", "99213"⟩

/-- A matched input row whose code is in the target list only. -/
def rowTgt : PtRow := ⟨"p1", "m1", "2024-01-01", "n1", "99215"⟩

/-- A matched input row whose code is in neither list. -/
def rowOther : PtRow := ⟨"p1", "m1", "2024-01-01", "n1", "99299"⟩

/-- An input row whose encounter is absent from the lookup result. -/
def rowAbsent : PtRow := ⟨"p2", "m1", "2024-01-01", "n1", "99213"⟩

/-- An input row with an empty procedure code in an unmatched encounter. -/
def rowEmptyCode : PtRow := ⟨"p2", "m1", "2024-01-01", "n1", ""⟩

/-! ### Claim C2 — edit-pair membership rule -/

/-- Claim C2, counterexample, in two parts.  First, the claim says every
line of an encounter absent from the lookup result is flagged `other`: the
code substitutes the one-element list `['']` for both code sets of an
unmatched encounter, so a line with an empty-string procedure code matches
the substituted reference list and is flagged `reference`, not `other`.
Second, the claim says a matched line whose code is in the reference set is
flagged `reference`: against `refRowW`, whose reference intersect cleans to
two codes, the `pd.isna` truth test of lines 172–173 raises `ValueError`
and the matched line `rowRef` is never flagged at all. -/
theorem editpair_rule_cex :
    (lookupFor [] rowEmptyCode = none ∧
      ptFlag [] rowEmptyCode = some ProcFlag.reference ∧
      ptFlag [] rowEmptyCode ≠ some ProcFlag.other) ∧
    (lookupFor [refRowW] rowRef = some refRowW ∧
      rowRef.procedureCode ∈ cleanIntersect refRowW.refIntersect ∧
      ptFlag [refRowW] rowRef = none ∧
      ptFlag [refRowW] rowRef ≠ some ProcFlag.reference) := by
  decide

/-- Claim C2, amended: for a line whose encounter matches the lookup result,
provided the `pd.isna` truth test of the fill step completes — both cleaned
intersect lists of the encounter are one-element — the flag is `reference`
when its procedure code is in the encounter's reference list (also when the
code is in both lists: `reference` wins), else `target` when in the target
list, else `other` — membership is exact string equality on the cleaned
lists; when either cleaned list of a matched line has two or more elements,
the truth test raises the uncaught `ValueError` and the line is never
flagged.  A line of an encounter absent from the lookup result has both code
sets substituted by `['']` and is flagged `other` unless its procedure code
is the empty string, in which case it is flagged `reference`. -/
theorem editpair_flag_rule (refs : List RefRow) (row : PtRow) :
    (∀ rr, lookupFor refs row = some rr →
      ((cleanIntersect rr.refIntersect).length = 1 →
        (cleanIntersect rr.targetIntersect).length = 1 →
        (row.procedureCode ∈ cleanIntersect rr.refIntersect →
          ptFlag refs row = some ProcFlag.reference) ∧
        (row.procedureCode ∉ cleanIntersect rr.refIntersect →
          row.procedureCode ∈ cleanIntersect rr.targetIntersect →
          ptFlag refs row = some ProcFlag.target) ∧
        (row.procedureCode ∉ cleanIntersect rr.refIntersect →
          row.procedureCode ∉ cleanIntersect rr.targetIntersect →
          ptFlag refs row = some ProcFlag.other)) ∧
      (((cleanIntersect rr.refIntersect).length ≠ 1 ∨
        (cleanIntersect rr.targetIntersect).length ≠ 1) →
        ptFlag refs row = none)) ∧
    (lookupFor refs row = none →
      (row.procedureCode ≠ "" → ptFlag refs row = some ProcFlag.other) ∧
      (row.procedureCode = "" → ptFlag refs row = some ProcFlag.reference)) := by
  constructor
  · intro rr hlk
    constructor
    · intro hl1 hl2
      refine ⟨?_, ?_, ?_⟩
      · intro h1
        simp [ptFlag, flag_row, effectiveSets_ok hlk hl1 hl2, h1]
      · intro h1 h2
        simp [ptFlag, flag_row, effectiveSets_ok hlk hl1 hl2, h1, h2]
      · intro h1 h2
        simp [ptFlag, flag_row, effectiveSets_ok hlk hl1 hl2, h1, h2]
    · intro hbad
      simp [ptFlag, effectiveSets_raises hlk hbad]
  · intro hlk
    constructor
    · intro hne
      simp [ptFlag, flag_row, effectiveSets_none hlk, hne]
    · intro he
      simp [ptFlag, flag_row, effectiveSets_none hlk, he]

/-- Claim C2, witness: against `refRowS` (one-element cleaned lists, so the
fill step completes), a matched `99213` line is `reference`, a matched
`99215` line is `target`, a matched `99299` line is `other`, and the
unmatched nonempty-code line is `other`; against `refRowW`, whose reference
intersect cleans to two codes, the `pd.isna` truth test raises and the
matched line gets no flag at all. -/
theorem editpair_flag_rule_witness :
    lookupFor [refRowS] rowRef = some refRowS ∧
    (cleanIntersect refRowS.refIntersect).length = 1 ∧
    (cleanIntersect refRowS.targetIntersect).length = 1 ∧
    ptFlag [refRowS] rowRef = some ProcFlag.reference ∧
    ptFlag [refRowS] rowTgt = some ProcFlag.target ∧
    ptFlag [refRowS] rowOther = some ProcFlag.other ∧
    ptFlag [refRowS] rowAbsent = some ProcFlag.other ∧
    (cleanIntersect refRowW.refIntersect).length ≠ 1 ∧
    ptFlag [refRowW] rowRef = none := by
  refine ⟨by decide, by decide, by decide, ?_, ?_, ?_, ?_, by decide, ?_⟩
  · exact ((((editpair_flag_rule [refRowS] rowRef).1 refRowS (by decide)).1
      (by decide) (by decide)).1) (by decide)
  · exact ((((editpair_flag_rule [refRowS] rowTgt).1 refRowS (by decide)).1
      (by decide) (by decide)).2.1) (by decide) (by decide)
  · exact ((((editpair_flag_rule [refRowS] rowOther).1 refRowS (by decide)).1
      (by decide) (by decide)).2.2) (by decide) (by decide)
  · exact (((editpair_flag_rule [refRowS] rowAbsent).2 (by decide)).1)
      (by decide)
  · exact (((editpair_flag_rule [refRowW] rowRef).1 refRowW (by decide)).2)
      (by decide)

/-! ### Claim C10 — unmatched encounters get the singleton empty-string sets -/

/-- Claim C10: a row whose encounter has no matching row in the lookup
result carries a scalar NaN, so the `pd.isna` fill completes and substitutes
the one-element list `['']` for both code sets; consequently the row is
flagged `other` if and only if its procedure code is not the empty string,
and an empty-string procedure code yields `reference`. -/
theorem unmatched_encounter_empty_sets (refs : List RefRow) (row : PtRow)
    (h : lookupFor refs row = none) :
    effectiveSets refs row = some ([""], [""]) ∧
    (ptFlag refs row = some ProcFlag.other ↔ row.procedureCode ≠ "") ∧
    (row.procedureCode = "" → ptFlag refs row = some ProcFlag.reference) := by
  refine ⟨effectiveSets_none h, ?_, ?_⟩
  · by_cases hp : row.procedureCode = ""
    · simp [ptFlag, flag_row, effectiveSets_none h, hp]
    · simp [ptFlag, flag_row, effectiveSets_none h, hp]
  · intro hp
    simp [ptFlag, flag_row, effectiveSets_none h, hp]

/-- Claim C10, witness: the unmatched rows `rowAbsent` (code `99213`) and
`rowEmptyCode` (empty code) behave as stated against the concrete reference
table `[refRowW]` — being unmatched, their cells are scalar NaN and the fill
completes on them. -/
theorem unmatched_encounter_empty_sets_witness :
    lookupFor [refRowW] rowAbsent = none ∧
    effectiveSets [refRowW] rowAbsent = some ([""], [""]) ∧
    (ptFlag [refRowW] rowAbsent = some ProcFlag.other ↔
      rowAbsent.procedureCode ≠ "") ∧
    (rowEmptyCode.procedureCode = "" →
      ptFlag [refRowW] rowEmptyCode = some ProcFlag.reference) := by
  refine ⟨by decide, ?_, ?_, ?_⟩
  · exact (unmatched_encounter_empty_sets [refRowW] rowAbsent (by decide)).1
  · exact (unmatched_encounter_empty_sets [refRowW] rowAbsent (by decide)).2.1
  · exact (unmatched_encounter_empty_sets [refRowW] rowEmptyCode
      (by decide)).2.2

/-! ### Claim C7 — edit-pair error handling -/

/-- Claim C7: a missing required column rejects the whole pass with a schema
error (naming a missing required column) before any row is classified; a
failed or undecodable lookup aborts the pass with the distinct lookup
failure; and a successful result presupposes that every required column was
present and the lookup succeeded, the output being exactly the input rows
1:1 in order, each carrying its genuine flag — never a partial or
best-effort list. -/
theorem editpair_error_handling (cols : List String) (rows : List PtRow)
    (outcome : QueryOutcome) :
    ((¬ ∀ c ∈ requiredColumns, c ∈ cols) →
      ∃ c ∈ requiredColumns, c ∉ cols ∧
        add_proc_code_flag_pt cols rows outcome
          = .error (PtError.schemaError c)) ∧
    ((∀ c ∈ requiredColumns, c ∈ cols) → run_query outcome = none →
      add_proc_code_flag_pt cols rows outcome = .error PtError.lookupFailure) ∧
    (∀ out, add_proc_code_flag_pt cols rows outcome = .ok out →
      (∀ c ∈ requiredColumns, c ∈ cols) ∧
      ∃ refs, run_query outcome = some refs ∧
        flagRows refs rows = some out ∧
        out.map Prod.fst = rows ∧
        ∀ pr ∈ out, ptFlag refs pr.1 = some pr.2) := by
  refine ⟨?_, ?_, ?_⟩
  · intro hmiss
    cases hf : requiredColumns.find? (fun c => !(cols.contains c)) with
    | none =>
      exfalso
      apply hmiss
      intro c hc
      have h := List.find?_eq_none.mp hf c hc
      simpa using h
    | some c =>
      refine ⟨c, List.mem_of_find?_eq_some hf, ?_, ?_⟩
      · have h := List.find?_some hf
        simpa using h
      · rw [add_proc_code_flag_pt, hf]
  · intro hall hq
    have hf : requiredColumns.find? (fun c => !(cols.contains c)) = none := by
      refine List.find?_eq_none.mpr ?_
      intro c hc
      simpa using hall c hc
    rw [add_proc_code_flag_pt, hf, hq]
  · intro out h
    cases hf : requiredColumns.find? (fun c => !(cols.contains c)) with
    | some c =>
      rw [add_proc_code_flag_pt, hf] at h
      cases h
    | none =>
      cases hq : run_query outcome with
      | none =>
        rw [add_proc_code_flag_pt, hf, hq] at h
        cases h
      | some refs =>
        rw [add_proc_code_flag_pt, hf, hq] at h
        replace h :
            (match flagRows refs rows with
              | none => Except.error PtError.truthValueAmbiguous
              | some flagged => Except.ok flagged) = Except.ok out := h
        cases hfr : flagRows refs rows with
        | none =>
          rw [hfr] at h
          cases h
        | some flagged =>
          rw [hfr] at h
          cases h
          refine ⟨?_, refs, rfl, hfr, flagRows_map_fst hfr,
            flagRows_flags hfr⟩
          intro c hc
          have hfc := List.find?_eq_none.mp hf c hc
          simpa using hfc

/-- Claim C7, witness: with all required columns present and a failed remote
query, the pass aborts with the lookup failure; and with a missing column it
aborts with the schema error naming it. -/
theorem editpair_error_handling_witness :
    (∀ c ∈ requiredColumns, c ∈ requiredColumns) ∧
    run_query QueryOutcome.startFailure = none ∧
    add_proc_code_flag_pt requiredColumns [rowRef] QueryOutcome.startFailure
      = .error PtError.lookupFailure ∧
    ¬ (∀ c ∈ requiredColumns, c ∈ ["procedure_code"]) ∧
    (∃ c ∈ requiredColumns, c ∉ (["procedure_code"] : List String) ∧
      add_proc_code_flag_pt ["procedure_code"] [rowRef]
          QueryOutcome.startFailure
        = .error (PtError.schemaError c)) := by
  refine ⟨by decide, rfl, ?_, by decide, ?_⟩
  · exact (editpair_error_handling requiredColumns [rowRef]
      QueryOutcome.startFailure).2.1 (by decide) rfl
  · exact (editpair_error_handling ["procedure_code"] [rowRef]
      QueryOutcome.startFailure).1 (by decide)

/-! ### Claim C9 — the polling loop of `run_query` -/

/-- Claim C9 (code bug): the `while True` loop of `run_query` has no retry
limit, sleep or time budget, so on a query that never reports a terminal
state it never returns: after any number of polls the loop is still running,
refuting the claimed bounded poll with terminal failure. -/
theorem poll_loop_unbounded (fuel : ℕ) :
    pollLoop (fun _ => QueryState.running) fuel = none := by
  have key : ∀ f i, pollFrom (fun _ => QueryState.running) i f = none := by
    intro f
    induction f with
    | zero => intro i; rfl
    | succ f ih =>
      intro i
      simp only [pollFrom, isTerminalState, if_false]
      exact ih (i + 1)
  exact key fuel 0
